import Mathlib

/-!
The routing and relay layer of registry-proxy

A shallow embedding of `cmd/main.go`.  The program starts one registry backend
per namespace, each listening on a private Unix socket, and a public HTTP
listener whose handler picks a namespace from the `ns` query parameter, dials
that namespace's socket and relays the request and the response.

Go maps are association lists with pairwise distinct keys (the order of the
list is the iteration order, which Go leaves unspecified, so every statement
about a map is made for every order).  What depends on the outside world is a
parameter: whether `http.NewRequest` accepts a request, what an exchange with a
backend yields, what the client decides after a response, what
`registry.NewRegistry` returns, the canonical form of a header key.  Of net/http
and net/url, the behaviour the handler meets is written out: `WriteHeader` and
its panic, the redirect loop of `client.Do`, the splitting of a URL by
`url.Parse`, the header entries the transport leaves out.
-/

namespace RegistryProxy

/-! ## Go maps -/

/-- A Go `map[string]β`: an association list whose keys are pairwise distinct. -/
abbrev GoMap (β : Type) := List (String × β)

namespace GoMap

variable {β : Type}

/-- The comma-ok lookup `v, ok := m[k]`. -/
def get? : GoMap β → String → Option β
  | [], _ => none
  | (k', v) :: rest, k => if k' = k then some v else get? rest k

/-- The assignment `m[k] = v`: replaces the entry of `k`, or adds one. -/
def set : GoMap β → String → β → GoMap β
  | [], k, v => [(k, v)]
  | (k', v') :: rest, k, v => if k' = k then (k, v) :: rest else (k', v') :: set rest k v

/-- The keys of the map, in iteration order. -/
def keys (m : GoMap β) : List String := m.map Prod.fst

/-- Whether `k` is a key: the `ok` of `_, ok := m[k]`. -/
def has (m : GoMap β) (k : String) : Bool := (m.get? k).isSome

end GoMap

/-! ## Endpoints and namespace resolution -/

/-- The function `getRegistrySock`: `fmt.Sprintf("./var/%s/registry.sock", ns)`. -/
def getRegistrySock (ns : String) : String :=
  "./var/" ++ ns ++ "/registry.sock"

/-- The default namespace of the handler, `namespace := "docker.io"`. -/
def defaultNamespace : String := "docker.io"

/-- The namespace resolution of the handler (`main.go` lines 66-71), on the
parsed query `r.URL.Query()`:
`if ns, ok := query["ns"]; ok && len(ns) > 0 { if _, ok := registries[ns[0]]; ok { namespace = ns[0] } }`. -/
def resolveNamespace {R : Type} (registries : GoMap R) (query : GoMap (List String)) : String :=
  match query.get? "ns" with
  | some (v :: _) => if registries.has v then v else defaultNamespace
  | _ => defaultNamespace

/-- The `http.Client` the handler builds for one request.  Its transport's
`DialContext` is a closure over the resolved namespace; the closure is
represented by the variable it captures. -/
structure Client where
  nsName : String
  deriving DecidableEq, Repr

/-- The `DialContext` closure of the handler:
`func(ctx, network, addr) { return net.Dial("unix", getRegistrySock(namespace)) }`.
The result is the (network, address) pair handed to `net.Dial`. -/
def Client.dialContext (c : Client) (_network _addr : String) : String × String :=
  ("unix", getRegistrySock c.nsName)

/-! ## Errors, headers, bodies -/

/-- A Go `error` value as the program uses it: `io.EOF`, or any other error
with its message. -/
inductive GoError where
  | eof
  | other (msg : String)
  deriving DecidableEq, Repr

/-- The method `err.Error()`. -/
def GoError.Error : GoError → String
  | .eof => "EOF"
  | .other msg => msg

/-- The test `errors.Is(err, io.EOF)`. -/
def GoError.isEOF : GoError → Bool
  | .eof => true
  | .other _ => false

/-- A byte of a body. -/
abbrev Byte := Nat

/-- An `http.Header`, the Go type `map[string][]string`. -/
abbrev Header := GoMap (List String)

/-- The index expression `h[k]` of a Go map of slices: `nil` for a missing key. -/
def Header.values (h : Header) (k : String) : List String :=
  (GoMap.get? h k).getD []

/-- The method `Header.Add(key, value)` of net/http: the key is canonicalised (`canon` is
`textproto.CanonicalMIMEHeaderKey`) and the value is appended to the values
already stored under it. -/
def Header.Add (canon : String → String) (h : Header) (key value : String) : Header :=
  GoMap.set h (canon key) (Header.values h (canon key) ++ [value])

/-- What one call `Read(buf)` of a body returns: the bytes placed at the start
of the buffer (`n` is their number) and the error, `none` for `nil`. -/
structure ReadResult where
  data : List Byte
  err : Option GoError
  deriving DecidableEq, Repr

/-- A body stream (`io.ReadCloser`): the result of its i-th call of `Read`. -/
abbrev Body := Nat → ReadResult

/-- A panic raised by net/http inside the handler: `WriteHeader` called with a
status code that is not three digits (`invalid WriteHeader code`). -/
inductive Panic where
  | invalidWriteHeaderCode (code : Nat)
  deriving DecidableEq, Repr

/-- The `http.ResponseWriter` of one inbound request: the live header map
`w.Header()`; whether the final status has been written; that status and the
header map as it stood when it was written, which are the handler's headers
that net/http sends (to them it adds headers of its own when it writes the
response, see `addsDate`); the argument of each call of `Write`, in order; and
the informational (1xx) status lines sent before the final one. -/
structure ResponseWriter where
  header : Header
  wroteHeader : Bool
  status : Nat
  sentHeader : Header
  writes : List (List Byte)
  informational : List Nat
  deriving DecidableEq, Repr

namespace ResponseWriter

/-- The writer a server hands to a handler: nothing set, nothing sent. -/
def fresh : ResponseWriter :=
  { header := [], wroteHeader := false, status := 0, sentHeader := [], writes := [],
    informational := [] }

/-- The call `w.Header().Add(k, v)`. -/
def addHeader (canon : String → String) (w : ResponseWriter) (k v : String) : ResponseWriter :=
  { w with header := Header.Add canon w.header k v }

/-- The call `w.WriteHeader(code)` of net/http.  Once a final status is
written a further call changes nothing.  Otherwise a code below 100 or above 999
panics; a code from 100 to 199 other than 101 sends an informational status
line and leaves the final status unwritten; any other code is written as the
final status, with the headers set so far. -/
def WriteHeader (w : ResponseWriter) (code : Nat) : Except Panic ResponseWriter :=
  if w.wroteHeader then .ok w
  else if code < 100 ∨ 999 < code then .error (.invalidWriteHeaderCode code)
  else if code ≤ 199 ∧ code ≠ 101 then
    .ok { w with informational := w.informational ++ [code] }
  else .ok { w with wroteHeader := true, status := code, sentHeader := w.header }

/-- The call `w.Write(p)`: writes the status 200 first when no final status
has been written, then records `p`. -/
def Write (w : ResponseWriter) (p : List Byte) : ResponseWriter :=
  let w1 := if w.wroteHeader then w
    else { w with wroteHeader := true, status := 200, sentHeader := w.header }
  { w1 with writes := w1.writes ++ [p] }

/-- Whether net/http, writing the response, adds a `Date` header of its own:
it does when a final status has been written and the header map sent has no
`Date` key. -/
def addsDate (w : ResponseWriter) : Bool :=
  w.wroteHeader && !(GoMap.has w.sentHeader "Date")

end ResponseWriter

/-! ## The relay handler -/

/-- An inbound `*http.Request`, with the fields the handler reads: `Method`,
`RequestURI`, the parsed query `URL.Query()`, `Header` and `Body`. -/
structure Request where
  method : String
  requestURI : String
  query : GoMap (List String)
  header : Header
  body : Body

/-! ### URLs, as net/url splits them -/

/-- The part of a string before the first occurrence of `c`, and the part after
it (`none` when `c` does not occur): `strings.Cut`. -/
def cutAt (c : Char) : List Char → List Char × Option (List Char)
  | [] => ([], none)
  | x :: rest =>
    if x = c then ([], some rest)
    else ((x :: (cutAt c rest).1), (cutAt c rest).2)

/-- The scheme scan `getScheme` of net/url, on the characters still to read,
with those read so far: letters go on; a digit, `+`, `-` or `.` goes on except
in first place; a `:` ends the scheme (in first place there is none); any other
character means there is no scheme.  The result is `none` when there is no
scheme. -/
def getSchemeAux : List Char → List Char → Option (List Char × List Char)
  | _, [] => none
  | seen, c :: rest =>
    if c.isAlpha then getSchemeAux (seen ++ [c]) rest
    else if c.isDigit ∨ c = '+' ∨ c = '-' ∨ c = '.' then
      if seen.isEmpty then none else getSchemeAux (seen ++ [c]) rest
    else if c = ':' then
      if seen.isEmpty then none else some (seen, rest)
    else none

/-- The parts `url.Parse` splits a URL string into, before any unescaping:
scheme, authority, path, the query after the first `?` (`none` without one) and
the fragment after the first `#` (`none` without one). -/
structure URLParts where
  scheme : String
  authority : String
  path : String
  query : Option String
  fragment : Option String
  deriving DecidableEq, Repr

/-- Of `url.Parse`, the splitting: the fragment is cut off at the first `#`;
the scheme is read and lowered; the query is cut off at the first `?`; when
what remains starts with `//`, as it does in every URL the handler builds, the
authority (user, host and port) runs up to the next `/` and the path is the
rest.  (A URL that `url.Parse` refuses is an error of `http.NewRequest`, which
is a parameter.) -/
def parseURLChars (raw : List Char) : URLParts :=
  let beforeFragment := (cutAt '#' raw).1
  let fragment := (cutAt '#' raw).2
  let scheme := match getSchemeAux [] beforeFragment with
    | some (sch, _) => sch.map Char.toLower
    | none => []
  let afterScheme := match getSchemeAux [] beforeFragment with
    | some (_, rest) => rest
    | none => beforeFragment
  let beforeQuery := (cutAt '?' afterScheme).1
  let query := (cutAt '?' afterScheme).2
  let authority := match beforeQuery with
    | '/' :: '/' :: rest => rest.takeWhile (fun c => c != '/')
    | _ => []
  let path := match beforeQuery with
    | '/' :: '/' :: rest => rest.dropWhile (fun c => c != '/')
    | other => other
  { scheme := String.mk scheme, authority := String.mk authority, path := String.mk path,
    query := query.map String.mk, fragment := fragment.map String.mk }

/-- The splitting of `url.Parse` on a string. -/
def parseURL (raw : String) : URLParts := parseURLChars raw.data

/-- The outbound `*http.Request` handed to `client.Do`. -/
structure OutRequest where
  method : String
  URL : URLParts
  header : Header
  body : Body

/-- The `*http.Response` of a successful round trip. -/
structure Response where
  statusCode : Nat
  header : Header
  body : Body

/-- What `http.Client` decides after a response: to return it, to follow a
redirect with a next request, or to fail (a `Location` it cannot parse). -/
inductive Redirect where
  | stop
  | follow (next : OutRequest)
  | fail (err : GoError)

/-- The library and the outside world of one request: whether `http.NewRequest`
rejects a method and URL; the network and address the transport passes to
`DialContext` for a request; what the exchange numbered `i` of a `client.Do`
call yields over a connection to a dialled endpoint; what the client decides
after a response (`redirectBehavior` and the `Location` header); and the
canonical form of a header key. -/
structure Env where
  newRequestErr : String → String → Option GoError
  dialArgs : OutRequest → String × String
  roundTrip : Nat → String × String → OutRequest → Except GoError Response
  redirect : OutRequest → Response → Redirect
  canon : String → String

/-- The call `http.NewRequest(method, url, body)`: an error when the method or
the URL is rejected, else a request with that method (`GET` for an empty one),
the parsed URL, that body and an empty header map. -/
def newRequest (env : Env) (method url : String) (body : Body) : Except GoError OutRequest :=
  match env.newRequestErr method url with
  | some err => .error err
  | none =>
    .ok { method := if method = "" then "GET" else method, URL := parseURL url,
          header := [], body := body }

/-- What one call of `client.Do` has done: the exchanges made with the backend,
in order, each with the endpoint of its connection and the request sent, and
the result returned. -/
structure DoResult where
  roundTrips : List ((String × String) × OutRequest)
  result : Except GoError Response

/-- The number of requests after which the default redirect policy of
`http.Client` (the handler sets no `CheckRedirect`) stops. -/
def maxRedirects : Nat := 10

/-- The loop of `client.Do`, with the number of requests still allowed and the
exchanges made so far: it sends the request over a connection dialled by the
client's `DialContext`, returns an error of the exchange, and otherwise returns
the response or goes on with the next request of a redirect; once
`maxRedirects` requests have been made a further redirect is an error. -/
def clientDoLoop (env : Env) (c : Client) :
    Nat → List ((String × String) × OutRequest) → OutRequest → DoResult
  | 0, made, _ =>
    { roundTrips := made, result := .error (.other "stopped after 10 redirects") }
  | left + 1, made, req =>
    let endpoint := c.dialContext (env.dialArgs req).1 (env.dialArgs req).2
    match env.roundTrip made.length endpoint req with
    | .error err => { roundTrips := made ++ [(endpoint, req)], result := .error err }
    | .ok resp =>
      match env.redirect req resp with
      | .stop => { roundTrips := made ++ [(endpoint, req)], result := .ok resp }
      | .fail err => { roundTrips := made ++ [(endpoint, req)], result := .error err }
      | .follow next => clientDoLoop env c left (made ++ [(endpoint, req)]) next

/-- The call `client.Do(req)` of the client the handler builds. -/
def Client.Do (env : Env) (c : Client) (req : OutRequest) : DoResult :=
  clientDoLoop env c maxRedirects [] req

/-- The header loop of the handler (lines 97-102):
`for k, vs := range res.Header { for _, v := range vs { w.Header().Add(k, v) } }`. -/
def copyHeaders (canon : String → String) (resHeader : Header) (w : ResponseWriter) :
    ResponseWriter :=
  resHeader.foldl (fun w kvs => kvs.2.foldl (fun w v => w.addHeader canon kvs.1 v) w) w

/-- The size of the transfer buffer, `make([]byte, 4096)`. -/
def bufSize : Nat := 4096

/-- State of the body loop: the writer, the log, the buffer, the number of
`Read` calls made, and whether the loop has reached its `break`. -/
structure CopyState where
  w : ResponseWriter
  logs : List String
  buf : List Byte
  reads : Nat
  finished : Bool

/-- The body loop of the handler (lines 106-118), run for at most `fuel`
iterations:
`for { n, err := res.Body.Read(buf); if n > 0 { w.Write(buf[:n]) };
if err != nil { if !errors.Is(err, io.EOF) { log }; break } }`.
`Read` puts its `n` bytes at the start of the buffer. -/
def copyBody (body : Body) : Nat → CopyState → CopyState
  | 0, st => st
  | fuel + 1, st =>
    let rr := body st.reads
    let n := rr.data.length
    let buf := rr.data ++ st.buf.drop n
    let w := if n > 0 then st.w.Write (buf.take n) else st.w
    match rr.err with
    | some err =>
      let logs := if err.isEOF then st.logs else st.logs ++ ["read res body err: " ++ err.Error]
      { w := w, logs := logs, buf := buf, reads := st.reads + 1, finished := true }
    | none =>
      copyBody body fuel { w := w, logs := st.logs, buf := buf, reads := st.reads + 1, finished := false }

/-- What handling one inbound request leaves behind: the response writer, the
log lines, the calls of `client.Do` made (client and outbound request), the
exchanges those calls made with the backend, the number of body reads, whether
the handler has ended (`false`: the body loop is still running after `fuel`
iterations), the panic that ended it if one did, and the registry map. -/
structure Outcome (R : Type) where
  w : ResponseWriter
  logs : List String
  calls : List (Client × OutRequest)
  roundTrips : List ((String × String) × OutRequest)
  reads : Nat
  finished : Bool
  panic : Option Panic
  registries : GoMap R

/-- The statements `w.WriteHeader(500); return` of the two failure branches. -/
def respond500 {R : Type} (registries : GoMap R) (w : ResponseWriter) (logs : List String)
    (calls : List (Client × OutRequest)) (roundTrips : List ((String × String) × OutRequest)) :
    Outcome R :=
  match w.WriteHeader 500 with
  | .error p =>
    { w := w, logs := logs, calls := calls, roundTrips := roundTrips, reads := 0,
      finished := true, panic := some p, registries := registries }
  | .ok w1 =>
    { w := w1, logs := logs, calls := calls, roundTrips := roundTrips, reads := 0,
      finished := true, panic := none, registries := registries }

/-- The handler of the public server (`startMainHttpServer`, lines 64-120), run
with at most `fuel` iterations of its body loop.  A panic of `WriteHeader` ends
it on the spot (net/http then closes the connection).  The deferred
`res.Body.Close()` changes nothing that is recorded here. -/
def proxyHandler {R : Type} (env : Env) (registries : GoMap R) (fuel : Nat)
    (w : ResponseWriter) (r : Request) : Outcome R :=
  let log1 := "[Proxy] " ++ r.method ++ " " ++ r.requestURI
  let nsName := resolveNamespace registries r.query
  let log2 := "[Proxy] namespace=" ++ nsName
  let url := "http://http.sock" ++ r.requestURI
  match newRequest env r.method url r.body with
  | .error err =>
    respond500 registries w [log1, log2, "http request err: " ++ err.Error] [] []
  | .ok unixReq0 =>
    let unixReq : OutRequest := { unixReq0 with header := r.header }
    let client : Client := { nsName := nsName }
    let done := client.Do env unixReq
    match done.result with
    | .error err =>
      respond500 registries w [log1, log2, "client.do err: " ++ err.Error]
        [(client, unixReq)] done.roundTrips
    | .ok res =>
      let w1 := copyHeaders env.canon res.header w
      match w1.WriteHeader res.statusCode with
      | .error p =>
        { w := w1, logs := [log1, log2], calls := [(client, unixReq)],
          roundTrips := done.roundTrips, reads := 0, finished := true, panic := some p,
          registries := registries }
      | .ok w2 =>
        let st := copyBody res.body fuel
          { w := w2, logs := [log1, log2], buf := List.replicate bufSize 0, reads := 0,
            finished := false }
        { w := st.w, logs := st.logs, calls := [(client, unixReq)],
          roundTrips := done.roundTrips, reads := st.reads, finished := st.finished,
          panic := none, registries := registries }

/-- The request that lines 74-81 of the handler build for an inbound request
once `http.NewRequest` accepts it: the request of `http.NewRequest` with the
header map of the inbound request. -/
def outboundRequest (r : Request) : OutRequest :=
  { method := if r.method = "" then "GET" else r.method,
    URL := parseURL ("http://http.sock" ++ r.requestURI),
    header := r.header, body := r.body }

/-- The call `client.Do(unixReq)` of the handler for an inbound request. -/
def relayDo {R : Type} (env : Env) (registries : GoMap R) (r : Request) : DoResult :=
  Client.Do env { nsName := resolveNamespace registries r.query } (outboundRequest r)

/-! ## Backend construction -/

/-- The `configuration.Proxy` of a namespace; the program sets `RemoteURL`. -/
structure Proxy where
  RemoteURL : String
  deriving DecidableEq, Repr

/-- The fields of `configuration.Configuration` the program sets. -/
structure Configuration where
  Version : String
  Storage : GoMap (GoMap String)
  Proxy : Proxy
  LogLevel : String
  HTTPNet : String
  HTTPAddr : String
  deriving DecidableEq, Repr

/-- The configuration `setupProxy` builds for a namespace (lines 36-50). -/
def setupProxyConfig (nsName : String) (proxy : Proxy) : Configuration :=
  { Version := "0.1"
    Storage := [("filesystem", [("rootdirectory", "./var/" ++ nsName ++ "/registry")]),
                ("cache", [("blobdescriptor", "inmemory")])]
    Proxy := proxy
    LogLevel := "info"
    HTTPNet := "unix"
    HTTPAddr := getRegistrySock nsName }

/-- The directory `setupProxy` creates with `os.MkdirAll` (line 52). -/
def setupProxyDir (nsName : String) : String := "./var/" ++ nsName

/-- The function `setupProxy`: builds the configuration and returns
`registry.NewRegistry(ctx, config)`; `newRegistry` is that library call. -/
def setupProxy {R : Type} (newRegistry : Configuration → Except GoError R)
    (nsName : String) (proxy : Proxy) : Except GoError R :=
  newRegistry (setupProxyConfig nsName proxy)

/-- The loop of `setupRegistries` over the entries still to visit, with the
map built so far: the first failing `setupProxy` ends it with that error. -/
def setupRegistriesLoop {R : Type} (newRegistry : Configuration → Except GoError R) :
    List (String × Proxy) → GoMap R → Except GoError (GoMap R)
  | [], registries => .ok registries
  | (ns, url) :: rest, registries =>
    match setupProxy newRegistry ns url with
    | .error err => .error err
    | .ok r => setupRegistriesLoop newRegistry rest (GoMap.set registries ns r)

/-- The function `setupRegistries` (lines 125-136): starts from the empty map and visits
the entries of `namespaces` in iteration order. -/
def setupRegistries {R : Type} (newRegistry : Configuration → Except GoError R)
    (namespaces : GoMap Proxy) : Except GoError (GoMap R) :=
  setupRegistriesLoop newRegistry namespaces []

/-- The namespace configuration of `main` (lines 142-158). -/
def mainNamespaces : GoMap Proxy :=
  [("docker.io", { RemoteURL := "https://dockerpull.org?ns=docker.io" }),
   ("quay.io", { RemoteURL := "https://dockerpull.org?ns=quay.io" }),
   ("registry.k8s.io", { RemoteURL := "https://dockerpull.org?ns=registry.k8s.io" }),
   ("cr.l5d.io", { RemoteURL := "https://dockerpull.org?ns=cr.l5d.io" }),
   ("container-registry.oracle.com", { RemoteURL := "https://container-registry.oracle.com" })]

/-! ## The error channel of `main`

The goroutines of `main` (lines 165-194) as a transition system.  Each
supervised component (a backend's `ListenAndServe`, or the public listener)
runs `if err := serve(); err != nil { errCh <- err }` and then `wg.Done()`;
one more goroutine runs `wg.Wait(); close(errCh)`; `main` waits in
`select { case err := <-errCh: logrus.Fatalln(err); case <-ctx.Done(): }`
where `ctx` is the background context, which is never done. -/

/-- Where a supervised goroutine stands: inside its serve call, at the
statement `errCh <- err` with its error, or returned. -/
inductive Worker where
  | serving
  | sending (err : GoError)
  | done
  deriving DecidableEq, Repr

/-- Where `main` stands: waiting in the `select`, having received a value from
`errCh` (`none` is the nil error a closed channel yields) and about to call
`logrus.Fatalln`, or exited. -/
inductive MainState where
  | waiting
  | received (err : Option GoError)
  | exited (err : Option GoError)
  deriving DecidableEq, Repr

/-- The capacity of `errCh`, `make(chan error, 1)`. -/
def errChCap : Nat := 1

/-- State of the goroutines and of the channel: `buf` is the buffer of
`errCh`, oldest value first; `sent` is a history of every error whose send has
completed, in order. -/
structure Sys where
  workers : List Worker
  buf : List GoError
  closed : Bool
  main : MainState
  sent : List GoError
  deriving DecidableEq, Repr

/-- One atomic move of one goroutine. -/
inductive Action where
  | fail (i : Nat) (err : GoError)
  | ret (i : Nat)
  | send (i : Nat)
  | close
  | recv
  | fatal
  deriving DecidableEq, Repr

/-- Whether `main` has exited, which ends the process and every goroutine. -/
def Sys.exited (s : Sys) : Bool :=
  match s.main with
  | .exited _ => true
  | _ => false

/-- The state after an action, `none` when the action cannot be taken in this
state (for `send`: the goroutine is blocked on the full channel; a send on a closed
channel does not arise, the channel being closed only once every worker is
done).
* `fail i err`: the serve call of worker `i` returns the error `err`;
* `ret i`: it returns nil, and the goroutine is done;
* `send i`: the blocking send `errCh <- err` of worker `i`, possible when the
  buffer holds fewer than `errChCap` values;
* `close`: `wg.Wait(); close(errCh)`, possible when every worker is done;
* `recv`: the receive of `main`, the oldest buffered value, or nil from a
  closed and empty channel;
* `fatal`: `logrus.Fatalln`, the process exits. -/
def step (s : Sys) : Action → Option Sys
  | .fail i err =>
    if s.exited then none
    else match s.workers[i]? with
      | some .serving => some { s with workers := s.workers.set i (.sending err) }
      | _ => none
  | .ret i =>
    if s.exited then none
    else match s.workers[i]? with
      | some .serving => some { s with workers := s.workers.set i .done }
      | _ => none
  | .send i =>
    if s.exited then none
    else match s.workers[i]? with
      | some (.sending err) =>
        if s.buf.length < errChCap ∧ s.closed = false then
          some { s with workers := s.workers.set i .done, buf := s.buf ++ [err],
                        sent := s.sent ++ [err] }
        else none
      | _ => none
  | .close =>
    if s.exited then none
    else if s.closed = false ∧ s.workers.all (fun x => x == .done) then
      some { s with closed := true }
    else none
  | .recv =>
    match s.main with
    | .waiting =>
      match s.buf with
      | err :: rest => some { s with buf := rest, main := .received (some err) }
      | [] => if s.closed then some { s with main := .received none } else none
    | _ => none
  | .fatal =>
    match s.main with
    | .received err => some { s with main := .exited err }
    | _ => none

/-- The state after a schedule of actions, `none` when one of them cannot be
taken. -/
def run : Sys → List Action → Option Sys
  | s, [] => some s
  | s, a :: rest =>
    match step s a with
    | some s1 => run s1 rest
    | none => none

/-- The state when `main` reaches its `select`: every supervised goroutine
started, the channel empty and open. -/
def Sys.init (n : Nat) : Sys :=
  { workers := List.replicate n .serving, buf := [], closed := false, main := .waiting,
    sent := [] }

/-- The error `main` has taken from the channel, if any. -/
def Sys.surfaced (s : Sys) : Option (Option GoError) :=
  match s.main with
  | .waiting => none
  | .received err => some err
  | .exited err => some err

/-- Worker `i` stands at its send and the send cannot complete. -/
def Sys.blocked (s : Sys) (i : Nat) : Bool :=
  match s.workers[i]? with
  | some (.sending _) => (step s (.send i)).isNone && !s.exited
  | _ => false

/-- What holds of every state `main` can reach: the channel holds at most
`errChCap` errors; while `main` waits, the errors sent are those in the buffer;
an error `main` has taken is the first one sent; a nil taken from the channel
means it was closed with nothing sent; the channel is closed only once every worker is
done. -/
def Sys.Inv (s : Sys) : Prop :=
  s.buf.length ≤ errChCap ∧
  (s.main = .waiting → s.sent = s.buf) ∧
  (∀ err, s.surfaced = some (some err) → s.sent.head? = some err) ∧
  (s.surfaced = some none → s.sent = [] ∧ s.closed = true) ∧
  (s.closed = true → ∀ x ∈ s.workers, x = .done)


/-! ## Concrete inputs

A two-namespace registry, backend worlds (one in which only `quay.io` answers,
one that answers with status 99, one that always redirects) and requests
against them, used to instantiate the theorems below. -/

/-- A registry with the namespaces `docker.io` and `quay.io`. -/
def exampleRegistries : GoMap Unit := [("docker.io", ()), ("quay.io", ())]

/-- The response of the `quay.io` backend: status 201, a two-valued header and
a body of 4097 bytes delivered by two reads, the second one with `io.EOF`. -/
def exampleResponse : Response :=
  { statusCode := 201
    header := [("X-Test", ["1", "2"]), ("Content-Type", ["text/plain"])]
    body := fun i =>
      if i = 0 then { data := List.replicate 4096 7, err := none }
      else { data := [9], err := some .eof } }

/-- A redirect policy as net/http applies it to a `GET`: a 302 is followed
with a `GET` of the `Location`, here always `/v2/`; any other response is
returned. -/
def exampleRedirect : OutRequest → Response → Redirect :=
  fun req resp =>
    if resp.statusCode = 302 then
      .follow { req with method := "GET", URL := parseURL "http://http.sock/v2/" }
    else .stop

/-- A world in which `http.NewRequest` rejects the method `BAD METHOD`, the
backend on the socket of `quay.io` answers with `exampleResponse` and no other
socket can be dialled. -/
def exampleEnv : Env :=
  { newRequestErr := fun m _ =>
      if m = "BAD METHOD" then some (.other "net/http: invalid method") else none
    dialArgs := fun req => ("tcp", req.URL.authority ++ ":80")
    roundTrip := fun _ endpoint _ =>
      if endpoint = ("unix", "./var/quay.io/registry.sock") then .ok exampleResponse
      else .error (.other "dial unix: connect: no such file or directory")
    redirect := exampleRedirect
    canon := fun k => if k = "x-test" then "X-Test" else k }

/-- A world in which every backend answers with the status line
`HTTP/1.1 099`, which the client reads as status 99, and one header. -/
def exampleEnvStatus99 : Env :=
  { exampleEnv with
    roundTrip := fun _ _ _ =>
      .ok { statusCode := 99, header := [("X-Test", ["1"])],
            body := fun _ => { data := [], err := some .eof } } }

/-- A world in which every backend answers every request with a 302 to
`/v2/`. -/
def exampleEnvRedirect : Env :=
  { exampleEnv with
    roundTrip := fun _ _ _ =>
      .ok { statusCode := 302, header := [("Location", ["/v2/"])],
            body := fun _ => { data := [], err := some .eof } } }

/-- A request `GET /v2/?ns=quay.io`. -/
def exampleRequest : Request :=
  { method := "GET", requestURI := "/v2/?ns=quay.io", query := [("ns", ["quay.io"])],
    header := [("Accept", ["a", "b"])], body := fun _ => { data := [], err := some .eof } }

/-- A request whose first `ns` value is unknown and whose second is `quay.io`. -/
def exampleRequestLater : Request :=
  { method := "GET", requestURI := "/v2/?ns=nope&ns=quay.io",
    query := [("ns", ["nope", "quay.io"])],
    header := [], body := fun _ => { data := [], err := some .eof } }

/-- A `registry.NewRegistry` that always succeeds; the registry it returns is
represented by the address it is bound to. -/
def exampleNewRegistry : Configuration → Except GoError String :=
  fun config => .ok config.HTTPAddr

/-- A namespace configuration without `docker.io`. -/
def exampleNamespacesNoDefault : GoMap Proxy :=
  [("quay.io", { RemoteURL := "https://dockerpull.org?ns=quay.io" })]

/-! ## Lemmas on Go maps -/

namespace GoMap

variable {β : Type}

theorem has_iff_mem_keys (m : GoMap β) (k : String) : m.has k = true ↔ k ∈ m.keys := by
  induction m with
  | nil => simp [has, get?, keys]
  | cons e rest ih =>
    obtain ⟨k', v⟩ := e
    by_cases h : k' = k
    · simp [has, get?, keys, h]
    · have ih' : (get? rest k).isSome = true ↔ k ∈ List.map Prod.fst rest := ih
      simp [has, get?, keys, h, ih', Ne.symm h]

theorem get?_eq_none_iff (m : GoMap β) (k : String) : m.get? k = none ↔ k ∉ m.keys := by
  rw [← has_iff_mem_keys]
  simp [has]

theorem get?_set_self (m : GoMap β) (k : String) (v : β) : (m.set k v).get? k = some v := by
  induction m with
  | nil => simp [set, get?]
  | cons e rest ih =>
    obtain ⟨k', v'⟩ := e
    by_cases h : k' = k
    · simp [set, get?, h]
    · simp [set, get?, h, ih]

theorem get?_set_other (m : GoMap β) (k k' : String) (v : β) (h : k ≠ k') :
    (m.set k v).get? k' = m.get? k' := by
  induction m with
  | nil => simp [set, get?, h]
  | cons e rest ih =>
    obtain ⟨k0, v0⟩ := e
    by_cases h0 : k0 = k
    · subst h0
      simp [set, get?, h]
    · simp [set, get?, h0, ih]

theorem set_of_not_mem (m : GoMap β) (k : String) (v : β) (h : k ∉ m.keys) :
    m.set k v = m ++ [(k, v)] := by
  induction m with
  | nil => rfl
  | cons e rest ih =>
    obtain ⟨k0, v0⟩ := e
    have h0 : k0 ≠ k := by
      intro hk
      exact h (by simp [keys, hk])
    have hr : k ∉ keys rest := by
      intro hk
      exact h (by simp only [keys, List.map_cons, List.mem_cons]; exact Or.inr hk)
    simp [set, h0, ih hr]

theorem set_append_self (m : GoMap β) (k : String) (v v' : β) (h : k ∉ m.keys) :
    set (m ++ [(k, v)]) k v' = m ++ [(k, v')] := by
  induction m with
  | nil => simp [set]
  | cons e rest ih =>
    obtain ⟨k0, v0⟩ := e
    have h0 : k0 ≠ k := by
      intro hk
      exact h (by simp [keys, hk])
    have hr : k ∉ keys rest := by
      intro hk
      exact h (by simp only [keys, List.map_cons, List.mem_cons]; exact Or.inr hk)
    simp [set, h0, ih hr]

theorem get?_append_of_not_mem (m m' : GoMap β) (k : String) (h : k ∉ m.keys) :
    get? (m ++ m') k = get? m' k := by
  induction m with
  | nil => rfl
  | cons e rest ih =>
    obtain ⟨k0, v0⟩ := e
    have h0 : k0 ≠ k := by
      intro hk
      exact h (by simp [keys, hk])
    have hr : k ∉ keys rest := by
      intro hk
      exact h (by simp only [keys, List.map_cons, List.mem_cons]; exact Or.inr hk)
    simp [get?, h0, ih hr]

theorem mem_keys_set (m : GoMap β) (k k' : String) (v : β) :
    k' ∈ (m.set k v).keys ↔ k' = k ∨ k' ∈ m.keys := by
  rw [← has_iff_mem_keys, ← has_iff_mem_keys]
  by_cases h : k = k'
  · subst h
    simp [has, get?_set_self]
  · have h' : ¬ k' = k := fun e => h e.symm
    simp [has, get?_set_other m k k' v h, h']

end GoMap

/-! ## Lemmas on the response writer and the body loop -/

theorem WriteHeader_500 (w : ResponseWriter) (h : w.wroteHeader = false) :
    w.WriteHeader 500 =
      .ok { w with wroteHeader := true, status := 500, sentHeader := w.header } := by
  simp [ResponseWriter.WriteHeader, h]

theorem WriteHeader_500_ok (w : ResponseWriter) : ∃ w1, w.WriteHeader 500 = .ok w1 := by
  cases h : w.wroteHeader with
  | false => exact ⟨_, WriteHeader_500 w h⟩
  | true => exact ⟨w, by simp [ResponseWriter.WriteHeader, h]⟩

/-- A final status code, written on a writer without one, is sent with the
headers set so far. -/
theorem WriteHeader_final (w : ResponseWriter) (code : Nat) (h : w.wroteHeader = false)
    (hfinal : code = 101 ∨ (200 ≤ code ∧ code ≤ 999)) :
    w.WriteHeader code =
      .ok { w with wroteHeader := true, status := code, sentHeader := w.header } := by
  have h1 : ¬ (code < 100 ∨ 999 < code) := by omega
  have h2 : ¬ (code ≤ 199 ∧ code ≠ 101) := by omega
  simp only [ResponseWriter.WriteHeader, h, h1, h2, if_false, Bool.false_eq_true]

/-- A status code below 100 or above 999 panics on a writer without a final
status. -/
theorem WriteHeader_panics (w : ResponseWriter) (code : Nat) (h : w.wroteHeader = false)
    (hbad : code < 100 ∨ 999 < code) :
    w.WriteHeader code = .error (.invalidWriteHeaderCode code) := by
  simp only [ResponseWriter.WriteHeader, h, hbad, if_true, if_false, Bool.false_eq_true]

theorem Write_of_wrote (w : ResponseWriter) (p : List Byte) (h : w.wroteHeader = true) :
    w.Write p = { w with writes := w.writes ++ [p] } := by
  simp [ResponseWriter.Write, h]

/-- One iteration of the body loop leaves a writer whose status has been
written with the same status and headers, and adds the bytes read, if any. -/
theorem copyBody_iter_writer (w : ResponseWriter) (data buf : List Byte)
    (h : w.wroteHeader = true) :
    (if data.length > 0 then w.Write ((data ++ buf.drop data.length).take data.length) else w)
      = { w with writes := w.writes ++ (if data = [] then [] else [data]) } := by
  cases data with
  | nil => simp
  | cons b bs =>
    have hlen : (b :: bs).length > 0 := by simp
    rw [if_pos hlen, Write_of_wrote _ _ h, List.take_left]
    simp

theorem copyBody_logs (body : Body) (fuel : Nat) (st : CopyState) :
    ∃ extra, (copyBody body fuel st).logs = st.logs ++ extra := by
  induction fuel generalizing st with
  | zero => exact ⟨[], by simp [copyBody]⟩
  | succ n ih =>
    simp only [copyBody]
    cases (body st.reads).err with
    | some err =>
      by_cases he : err.isEOF = true
      · exact ⟨[], by simp [he]⟩
      · exact ⟨["read res body err: " ++ err.Error], by simp [he]⟩
    | none =>
      obtain ⟨extra, h⟩ := ih
        { w := if (body st.reads).data.length > 0 then
                 st.w.Write (((body st.reads).data ++
                   st.buf.drop (body st.reads).data.length).take (body st.reads).data.length)
               else st.w,
          logs := st.logs,
          buf := (body st.reads).data ++ st.buf.drop (body st.reads).data.length,
          reads := st.reads + 1, finished := false }
      exact ⟨extra, h⟩

/-- The body loop never touches the status or the headers of a writer whose
status has been written: it only appends writes. -/
theorem copyBody_writer (body : Body) (fuel : Nat) (st : CopyState)
    (h : st.w.wroteHeader = true) :
    ∃ ws, (copyBody body fuel st).w = { st.w with writes := st.w.writes ++ ws } := by
  induction fuel generalizing st with
  | zero => exact ⟨[], by simp [copyBody]⟩
  | succ n ih =>
    simp only [copyBody]
    rw [copyBody_iter_writer st.w (body st.reads).data st.buf h]
    split
    · exact ⟨_, rfl⟩
    · obtain ⟨ws, hws⟩ := ih
        { w := { st.w with writes := st.w.writes ++
                   (if (body st.reads).data = [] then [] else [(body st.reads).data]) },
          logs := st.logs,
          buf := (body st.reads).data ++ st.buf.drop (body st.reads).data.length,
          reads := st.reads + 1, finished := false } h
      refine ⟨(if (body st.reads).data = [] then [] else [(body st.reads).data]) ++ ws, ?_⟩
      rw [hws]
      simp

theorem addHeader_foldl (canon : String → String) (k : String) (vs : List String)
    (w : ResponseWriter) :
    vs.foldl (fun w v => w.addHeader canon k v) w =
      { w with header := vs.foldl (fun h v => Header.Add canon h k v) w.header } := by
  induction vs generalizing w with
  | nil => rfl
  | cons v rest ih =>
    rw [List.foldl_cons, ih, List.foldl_cons]
    rfl

theorem copyHeaders_eq (canon : String → String) (res : Header) (w : ResponseWriter) :
    copyHeaders canon res w =
      { w with header :=
          (res.foldl (fun h kvs => kvs.2.foldl (fun h v => Header.Add canon h kvs.1 v) h)
            w.header) } := by
  unfold copyHeaders
  induction res generalizing w with
  | nil => rfl
  | cons e rest ih =>
    rw [List.foldl_cons, ih, List.foldl_cons, addHeader_foldl]

theorem values_of_not_mem (h : Header) (k : String) (hk : k ∉ GoMap.keys h) :
    Header.values h k = [] := by
  simp [Header.values, (GoMap.get?_eq_none_iff h k).mpr hk]

theorem add_foldl_append (canon : String → String) (h : Header) (k : String)
    (hk : k ∉ GoMap.keys h) (hc : canon k = k) (vs acc : List String) :
    vs.foldl (fun h v => Header.Add canon h k v) (h ++ [(k, acc)]) = h ++ [(k, acc ++ vs)] := by
  induction vs generalizing acc with
  | nil => simp
  | cons v rest ih =>
    have hval : Header.values (h ++ [(k, acc)]) k = acc := by
      simp [Header.values, GoMap.get?_append_of_not_mem h [(k, acc)] k hk, GoMap.get?]
    rw [List.foldl_cons]
    have hadd : Header.Add canon (h ++ [(k, acc)]) k v = h ++ [(k, acc ++ [v])] := by
      simp only [Header.Add, hc, hval, GoMap.set_append_self h k _ _ hk]
    rw [hadd, ih]
    simp

theorem add_foldl_fresh (canon : String → String) (h : Header) (k : String)
    (hk : k ∉ GoMap.keys h) (hc : canon k = k) (vs : List String) :
    vs.foldl (fun h v => Header.Add canon h k v) h =
      h ++ (if vs.isEmpty then [] else [(k, vs)]) := by
  cases vs with
  | nil => simp
  | cons v rest =>
    rw [List.foldl_cons]
    have hadd : Header.Add canon h k v = h ++ [(k, [v])] := by
      simp only [Header.Add, hc, values_of_not_mem h k hk, List.nil_append,
        GoMap.set_of_not_mem h k _ hk]
    rw [hadd, add_foldl_append canon h k hk hc]
    simp

/-- The header loop on a map whose keys are canonical and distinct from those
already set: the entries with at least one value are appended, in order. -/
theorem header_foldl_append (canon : String → String) (res : Header) :
    ∀ h : Header, (GoMap.keys res).Nodup → (∀ k ∈ GoMap.keys res, canon k = k) →
      (∀ k ∈ GoMap.keys res, k ∉ GoMap.keys h) →
      res.foldl (fun h kvs => kvs.2.foldl (fun h v => Header.Add canon h kvs.1 v) h) h =
        h ++ res.filter (fun e => !e.2.isEmpty) := by
  induction res with
  | nil => intro h _ _ _; simp
  | cons e rest ih =>
    intro h hnd hc hdis
    obtain ⟨k, vs⟩ := e
    have hnd' : k ∉ GoMap.keys rest ∧ (GoMap.keys rest).Nodup := by
      simpa [GoMap.keys] using hnd
    have hk : k ∉ GoMap.keys h := hdis k (by simp [GoMap.keys])
    have hck : canon k = k := hc k (by simp [GoMap.keys])
    simp only [List.foldl_cons, add_foldl_fresh canon h k hk hck vs]
    rw [ih _ hnd'.2 (fun k' hk' => hc k' (by
          simp only [GoMap.keys, List.map_cons, List.mem_cons]; exact Or.inr hk'))]
    · cases vs <;> simp [List.filter]
    · intro k' hk' hmem
      have hne : k' ≠ k := fun e => hnd'.1 (e ▸ hk')
      have h1 : k' ∉ GoMap.keys h := hdis k' (by
        simp only [GoMap.keys, List.map_cons, List.mem_cons]; exact Or.inr hk')
      cases vs with
      | nil => simp at hmem; exact h1 hmem
      | cons v vs' =>
        simp [GoMap.keys] at hmem
        rcases hmem with hmem | hmem
        · exact h1 (by simpa [GoMap.keys] using hmem)
        · exact hne hmem

theorem values_filter (res : Header) (hnd : (GoMap.keys res).Nodup) (name : String) :
    Header.values (res.filter (fun e => !e.2.isEmpty)) name = Header.values res name := by
  induction res with
  | nil => rfl
  | cons e rest ih =>
    obtain ⟨k, vs⟩ := e
    have hnd' : k ∉ GoMap.keys rest ∧ (GoMap.keys rest).Nodup := by
      simpa [GoMap.keys] using hnd
    have ih' := ih hnd'.2
    cases vs with
    | nil =>
      have hf : List.filter (fun e : String × List String => !e.2.isEmpty) ((k, []) :: rest)
          = List.filter (fun e => !e.2.isEmpty) rest := by simp
      rw [hf, ih']
      by_cases hk : k = name
      · subst hk
        rw [values_of_not_mem rest k hnd'.1]
        simp [Header.values, GoMap.get?]
      · simp [Header.values, GoMap.get?, hk]
    | cons v vs' =>
      by_cases hk : k = name
      · simp [List.filter, Header.values, GoMap.get?, hk]
      · simp only [Header.values] at ih'
        simp [List.filter, Header.values, GoMap.get?, hk, ih']

theorem has_filter (res : Header) (hnd : (GoMap.keys res).Nodup) (name : String) :
    GoMap.has (res.filter (fun e => !e.2.isEmpty)) name = true ↔ Header.values res name ≠ [] := by
  induction res with
  | nil => simp [GoMap.has, GoMap.get?, Header.values]
  | cons e rest ih =>
    obtain ⟨k, vs⟩ := e
    have hnd' : k ∉ GoMap.keys rest ∧ (GoMap.keys rest).Nodup := by
      simpa [GoMap.keys] using hnd
    have ih' := ih hnd'.2
    cases vs with
    | nil =>
      have hf : List.filter (fun e : String × List String => !e.2.isEmpty) ((k, []) :: rest)
          = List.filter (fun e => !e.2.isEmpty) rest := by simp
      rw [hf, ih']
      by_cases hk : k = name
      · subst hk
        rw [values_of_not_mem rest k hnd'.1]
        simp [Header.values, GoMap.get?]
      · simp [Header.values, GoMap.get?, hk]
    | cons v vs' =>
      by_cases hk : k = name
      · simp [List.filter, Header.values, GoMap.has, GoMap.get?, hk]
      · simp only [Header.values, GoMap.has] at ih'
        simp [List.filter, Header.values, GoMap.has, GoMap.get?, hk, ih']

/-! ## Lemmas on the handler -/

theorem getRegistrySock_inj (a b : String) (h : getRegistrySock a = getRegistrySock b) :
    a = b := by
  have hd := congrArg String.data h
  simp only [getRegistrySock, String.data_append] at hd
  have h1 := List.append_cancel_right hd
  have h2 := List.append_cancel_left h1
  exact String.ext h2

theorem respond500_logs {R : Type} (registries : GoMap R) (w : ResponseWriter)
    (logs : List String) (calls : List (Client × OutRequest))
    (trips : List ((String × String) × OutRequest)) :
    (respond500 registries w logs calls trips).logs = logs := by
  unfold respond500
  split <;> rfl

theorem respond500_calls {R : Type} (registries : GoMap R) (w : ResponseWriter)
    (logs : List String) (calls : List (Client × OutRequest))
    (trips : List ((String × String) × OutRequest)) :
    (respond500 registries w logs calls trips).calls = calls := by
  unfold respond500
  split <;> rfl

/-- The failure branches on a writer without a final status: status 500 is
written and nothing else changes. -/
theorem respond500_of_not_wrote {R : Type} (registries : GoMap R) (w : ResponseWriter)
    (logs : List String) (calls : List (Client × OutRequest))
    (trips : List ((String × String) × OutRequest)) (h : w.wroteHeader = false) :
    respond500 registries w logs calls trips =
      { w := { w with wroteHeader := true, status := 500, sentHeader := w.header },
        logs := logs, calls := calls, roundTrips := trips, reads := 0, finished := true,
        panic := none, registries := registries } := by
  simp only [respond500, WriteHeader_500 w h]

theorem proxyHandler_of_newRequest_err {R : Type} (env : Env) (registries : GoMap R)
    (fuel : Nat) (w : ResponseWriter) (r : Request) (err : GoError)
    (hnew : env.newRequestErr r.method ("http://http.sock" ++ r.requestURI) = some err) :
    proxyHandler env registries fuel w r =
      respond500 registries w
        ["[Proxy] " ++ r.method ++ " " ++ r.requestURI,
         "[Proxy] namespace=" ++ resolveNamespace registries r.query,
         "http request err: " ++ err.Error] [] [] := by
  simp only [proxyHandler, newRequest, hnew]

theorem proxyHandler_of_do_err {R : Type} (env : Env) (registries : GoMap R) (fuel : Nat)
    (w : ResponseWriter) (r : Request) (err : GoError)
    (hnew : env.newRequestErr r.method ("http://http.sock" ++ r.requestURI) = none)
    (hdo : (relayDo env registries r).result = .error err) :
    proxyHandler env registries fuel w r =
      respond500 registries w
        ["[Proxy] " ++ r.method ++ " " ++ r.requestURI,
         "[Proxy] namespace=" ++ resolveNamespace registries r.query,
         "client.do err: " ++ err.Error]
        [({ nsName := resolveNamespace registries r.query }, outboundRequest r)]
        (relayDo env registries r).roundTrips := by
  simp only [relayDo, outboundRequest] at hdo
  simp only [proxyHandler, newRequest, hnew, hdo, relayDo, outboundRequest]

theorem proxyHandler_of_panic {R : Type} (env : Env) (registries : GoMap R) (fuel : Nat)
    (w : ResponseWriter) (r : Request) (res : Response) (p : Panic)
    (hnew : env.newRequestErr r.method ("http://http.sock" ++ r.requestURI) = none)
    (hdo : (relayDo env registries r).result = .ok res)
    (hwh : (copyHeaders env.canon res.header w).WriteHeader res.statusCode = .error p) :
    proxyHandler env registries fuel w r =
      { w := copyHeaders env.canon res.header w,
        logs := ["[Proxy] " ++ r.method ++ " " ++ r.requestURI,
                 "[Proxy] namespace=" ++ resolveNamespace registries r.query],
        calls := [({ nsName := resolveNamespace registries r.query }, outboundRequest r)],
        roundTrips := (relayDo env registries r).roundTrips,
        reads := 0, finished := true, panic := some p, registries := registries } := by
  simp only [relayDo, outboundRequest] at hdo
  simp only [proxyHandler, newRequest, hnew, hdo, hwh, relayDo, outboundRequest]

theorem proxyHandler_of_response {R : Type} (env : Env) (registries : GoMap R) (fuel : Nat)
    (w : ResponseWriter) (r : Request) (res : Response) (w2 : ResponseWriter)
    (hnew : env.newRequestErr r.method ("http://http.sock" ++ r.requestURI) = none)
    (hdo : (relayDo env registries r).result = .ok res)
    (hwh : (copyHeaders env.canon res.header w).WriteHeader res.statusCode = .ok w2) :
    ∃ st : CopyState,
      st = copyBody res.body fuel
        { w := w2,
          logs := ["[Proxy] " ++ r.method ++ " " ++ r.requestURI,
                   "[Proxy] namespace=" ++ resolveNamespace registries r.query],
          buf := List.replicate bufSize 0, reads := 0, finished := false } ∧
      proxyHandler env registries fuel w r =
        { w := st.w, logs := st.logs,
          calls := [({ nsName := resolveNamespace registries r.query }, outboundRequest r)],
          roundTrips := (relayDo env registries r).roundTrips,
          reads := st.reads, finished := st.finished, panic := none,
          registries := registries } := by
  refine ⟨_, rfl, ?_⟩
  simp only [relayDo, outboundRequest] at hdo
  simp only [proxyHandler, newRequest, hnew, hdo, hwh, relayDo, outboundRequest]

theorem proxyHandler_calls_of_ok {R : Type} (env : Env) (registries : GoMap R) (fuel : Nat)
    (w : ResponseWriter) (r : Request)
    (hnew : env.newRequestErr r.method ("http://http.sock" ++ r.requestURI) = none) :
    (proxyHandler env registries fuel w r).calls =
      [({ nsName := resolveNamespace registries r.query }, outboundRequest r)] := by
  cases hdo : (relayDo env registries r).result with
  | error err =>
    rw [proxyHandler_of_do_err env registries fuel w r err hnew hdo, respond500_calls]
  | ok res =>
    cases hwh : (copyHeaders env.canon res.header w).WriteHeader res.statusCode with
    | error p => rw [proxyHandler_of_panic env registries fuel w r res p hnew hdo hwh]
    | ok w2 =>
      obtain ⟨st, _, h⟩ := proxyHandler_of_response env registries fuel w r res w2 hnew hdo hwh
      rw [h]

theorem proxyHandler_client {R : Type} (env : Env) (registries : GoMap R) (fuel : Nat)
    (w : ResponseWriter) (r : Request) :
    ∀ c ∈ (proxyHandler env registries fuel w r).calls,
      c.1 = { nsName := resolveNamespace registries r.query } := by
  intro c hc
  cases hnew : env.newRequestErr r.method ("http://http.sock" ++ r.requestURI) with
  | none =>
    rw [proxyHandler_calls_of_ok env registries fuel w r hnew] at hc
    simp at hc
    rw [hc]
  | some err =>
    rw [proxyHandler_of_newRequest_err env registries fuel w r err hnew,
      respond500_calls] at hc
    simp at hc

/-- The second log line of the handler is the resolved namespace. -/
theorem proxyHandler_log_namespace {R : Type} (env : Env) (registries : GoMap R) (fuel : Nat)
    (w : ResponseWriter) (r : Request) :
    (proxyHandler env registries fuel w r).logs.get? 1 =
      some ("[Proxy] namespace=" ++ resolveNamespace registries r.query) := by
  cases hnew : env.newRequestErr r.method ("http://http.sock" ++ r.requestURI) with
  | some err =>
    rw [proxyHandler_of_newRequest_err env registries fuel w r err hnew, respond500_logs]
    rfl
  | none =>
    cases hdo : (relayDo env registries r).result with
    | error err =>
      rw [proxyHandler_of_do_err env registries fuel w r err hnew hdo, respond500_logs]
      rfl
    | ok res =>
      cases hwh : (copyHeaders env.canon res.header w).WriteHeader res.statusCode with
      | error p =>
        rw [proxyHandler_of_panic env registries fuel w r res p hnew hdo hwh]
        rfl
      | ok w2 =>
        obtain ⟨st, hst, h⟩ :=
          proxyHandler_of_response env registries fuel w r res w2 hnew hdo hwh
        obtain ⟨extra, hlogs⟩ := copyBody_logs res.body fuel
          { w := w2,
            logs := ["[Proxy] " ++ r.method ++ " " ++ r.requestURI,
                     "[Proxy] namespace=" ++ resolveNamespace registries r.query],
            buf := List.replicate bufSize 0, reads := 0, finished := false }
        rw [h, hst, hlogs]
        rfl

/-! ## Lemmas on the client and on URLs -/

/-- The exchanges of the loop of `client.Do`: those made before, then at most
as many as requests are still allowed, all over connections to the socket of
the client's namespace, the first of them sending the request given. -/
theorem clientDoLoop_roundTrips (env : Env) (c : Client) (left : Nat) :
    ∀ (made : List ((String × String) × OutRequest)) (req : OutRequest),
      ∃ more, (clientDoLoop env c left made req).roundTrips = made ++ more ∧
        more.length ≤ left ∧
        (∀ t ∈ more, t.1 = ("unix", getRegistrySock c.nsName)) ∧
        (0 < left → more.head? = some (("unix", getRegistrySock c.nsName), req)) := by
  induction left with
  | zero =>
    intro made req
    exact ⟨[], by simp [clientDoLoop], by simp, by simp, by simp⟩
  | succ n ih =>
    intro made req
    have one : ∃ more, made ++ [(c.dialContext (env.dialArgs req).1 (env.dialArgs req).2, req)]
        = made ++ more ∧ more.length ≤ n + 1 ∧
        (∀ t ∈ more, t.1 = ("unix", getRegistrySock c.nsName)) ∧
        (0 < n + 1 → more.head? = some (("unix", getRegistrySock c.nsName), req)) :=
      ⟨[(c.dialContext (env.dialArgs req).1 (env.dialArgs req).2, req)], rfl, by simp,
        by simp [Client.dialContext], by simp [Client.dialContext]⟩
    cases hrt : env.roundTrip made.length
        (c.dialContext (env.dialArgs req).1 (env.dialArgs req).2) req with
    | error err =>
      simp only [clientDoLoop, hrt]
      exact one
    | ok resp =>
      cases hrd : env.redirect req resp with
      | stop =>
        simp only [clientDoLoop, hrt, hrd]
        exact one
      | fail err =>
        simp only [clientDoLoop, hrt, hrd]
        exact one
      | follow next =>
        simp only [clientDoLoop, hrt, hrd]
        obtain ⟨more, h1, h2, h3, _⟩ :=
          ih (made ++ [(c.dialContext (env.dialArgs req).1 (env.dialArgs req).2, req)]) next
        refine ⟨(c.dialContext (env.dialArgs req).1 (env.dialArgs req).2, req) :: more,
          by simp [h1], by simp only [List.length_cons]; omega, ?_,
          fun _ => by simp [Client.dialContext]⟩
        intro t ht
        rcases List.mem_cons.mp ht with rfl | ht
        · rfl
        · exact h3 t ht

/-- The exchanges of one call of `client.Do` by the handler. -/
theorem relayDo_roundTrips {R : Type} (env : Env) (registries : GoMap R) (r : Request) :
    (relayDo env registries r).roundTrips.length ≤ maxRedirects ∧
    (∀ t ∈ (relayDo env registries r).roundTrips,
      t.1 = ("unix", getRegistrySock (resolveNamespace registries r.query))) ∧
    (relayDo env registries r).roundTrips.head? =
      some (("unix", getRegistrySock (resolveNamespace registries r.query)),
        outboundRequest r) := by
  obtain ⟨more, h1, h2, h3, h4⟩ := clientDoLoop_roundTrips env
    { nsName := resolveNamespace registries r.query } maxRedirects [] (outboundRequest r)
  simp only [List.nil_append] at h1
  simp only [relayDo, Client.Do, h1]
  exact ⟨h2, h3, h4 (by decide)⟩

/-- C9: `getRegistrySock` is injective: two namespaces with the same socket
path are the same namespace, so distinct namespaces never share a socket. -/
theorem getRegistrySock_injective (a b : String)
    (h : getRegistrySock a = getRegistrySock b) : a = b := by
  have hd : ("./var/" ++ a ++ "/registry.sock").data = ("./var/" ++ b ++ "/registry.sock").data :=
    congrArg String.data h
  rw [String.data_append, String.data_append, String.data_append, String.data_append] at hd
  have hvar : "./var/".data ++ a.data = "./var/".data ++ b.data := List.append_cancel_right hd
  exact String.ext (List.append_cancel_left hvar)

/-- Instance of `getRegistrySock_injective` at the namespace `quay.io`. -/
theorem getRegistrySock_injective_witness :
    getRegistrySock "quay.io" = getRegistrySock "quay.io" ∧ "quay.io" = "quay.io" :=
  ⟨rfl, getRegistrySock_injective "quay.io" "quay.io" rfl⟩

/-- C1: when the first `ns` query value `v` of a request is a key of the
registry, the handler resolves the namespace to `v` (and logs it), every round
trip it makes dials `("unix", getRegistrySock v)` whatever network and address
the transport passes, which is the socket of no other namespace, and once the
outbound request is built it makes its one round trip with that client. -/
theorem routing_correctness {R : Type} (env : Env) (registries : GoMap R) (fuel : Nat)
    (w : ResponseWriter) (r : Request) (v : String) (rest : List String)
    (hq : r.query.get? "ns" = some (v :: rest)) (hv : registries.has v = true) :
    resolveNamespace registries r.query = v ∧
    (proxyHandler env registries fuel w r).logs.get? 1 = some ("[Proxy] namespace=" ++ v) ∧
    (∀ c ∈ (proxyHandler env registries fuel w r).calls, ∀ network addr : String,
      c.1.dialContext network addr = ("unix", getRegistrySock v) ∧
      ∀ k : String, k ≠ v → (c.1.dialContext network addr).2 ≠ getRegistrySock k) ∧
    (env.newRequestErr r.method ("http://http.sock" ++ r.requestURI) = none →
      (proxyHandler env registries fuel w r).calls.map (fun c => c.1) = [{ nsName := v }]) := by
  have hres : resolveNamespace registries r.query = v := by
    simp [resolveNamespace, hq, hv]
  refine ⟨hres, ?_, ?_, ?_⟩
  · rw [proxyHandler_log_namespace, hres]
  · intro c hc network addr
    have hc1 := proxyHandler_client env registries fuel w r c hc
    rw [hres] at hc1
    refine ⟨by rw [hc1]; rfl, ?_⟩
    intro k hk heq
    rw [hc1] at heq
    exact hk (getRegistrySock_inj _ _ heq).symm
  · intro hnew
    rw [proxyHandler_calls_of_ok env registries fuel w r hnew, hres]
    rfl

/-- Instance of `routing_correctness`: `GET /v2/?ns=quay.io` against the
registry of `docker.io` and `quay.io`. -/
theorem routing_correctness_witness :
    (exampleRequest.query.get? "ns" = some ("quay.io" :: []) ∧
      exampleRegistries.has "quay.io" = true) ∧
    resolveNamespace exampleRegistries exampleRequest.query = "quay.io" ∧
    (proxyHandler exampleEnv exampleRegistries 8 ResponseWriter.fresh exampleRequest).calls.map
      (fun c => c.1.dialContext "tcp" "http.sock:80") =
        [("unix", "./var/quay.io/registry.sock")] :=
  have h := routing_correctness exampleEnv exampleRegistries 8 ResponseWriter.fresh
    exampleRequest "quay.io" [] (by decide) (by decide)
  ⟨⟨by decide, by decide⟩, h.1, by
    have h4 := h.2.2.2 rfl
    have := congrArg (List.map (fun c : Client => c.dialContext "tcp" "http.sock:80")) h4
    simpa [List.map_map, Function.comp_def, Client.dialContext, getRegistrySock] using this⟩

/-- C2: when the `ns` query parameter is absent, has no values, or its first
value is not a key of the registry (whatever its later values are), the handler
resolves the namespace to `docker.io` (and logs it) and every round trip it
makes dials `("unix", getRegistrySock "docker.io")`; once the outbound request
is built it makes its one round trip with that client. -/
theorem default_fallback {R : Type} (env : Env) (registries : GoMap R) (fuel : Nat)
    (w : ResponseWriter) (r : Request)
    (hq : r.query.get? "ns" = none ∨ r.query.get? "ns" = some [] ∨
      ∃ v rest, r.query.get? "ns" = some (v :: rest) ∧ registries.has v = false) :
    resolveNamespace registries r.query = "docker.io" ∧
    (proxyHandler env registries fuel w r).logs.get? 1 = some "[Proxy] namespace=docker.io" ∧
    (∀ c ∈ (proxyHandler env registries fuel w r).calls, ∀ network addr : String,
      c.1.dialContext network addr = ("unix", getRegistrySock "docker.io")) ∧
    (env.newRequestErr r.method ("http://http.sock" ++ r.requestURI) = none →
      (proxyHandler env registries fuel w r).calls.map (fun c => c.1) =
        [{ nsName := "docker.io" }]) := by
  have hres : resolveNamespace registries r.query = "docker.io" := by
    rcases hq with h | h | ⟨v, rest, h, hv⟩
    · simp [resolveNamespace, h, defaultNamespace]
    · simp [resolveNamespace, h, defaultNamespace]
    · simp [resolveNamespace, h, hv, defaultNamespace]
  refine ⟨hres, ?_, ?_, ?_⟩
  · rw [proxyHandler_log_namespace, hres]
    rfl
  · intro c hc network addr
    have hc1 := proxyHandler_client env registries fuel w r c hc
    rw [hres] at hc1
    rw [hc1]
    rfl
  · intro hnew
    rw [proxyHandler_calls_of_ok env registries fuel w r hnew, hres]
    rfl

/-- Instance of `default_fallback`: a request whose first `ns` value is
unknown and whose second is a key of the registry goes to `docker.io`. -/
theorem default_fallback_witness :
    (∃ v rest, exampleRequestLater.query.get? "ns" = some (v :: rest) ∧
      exampleRegistries.has v = false) ∧
    exampleRegistries.has "quay.io" = true ∧
    resolveNamespace exampleRegistries exampleRequestLater.query = "docker.io" :=
  have hq : ∃ v rest, exampleRequestLater.query.get? "ns" = some (v :: rest) ∧
      exampleRegistries.has v = false := ⟨"nope", ["quay.io"], by decide, by decide⟩
  ⟨hq, by decide,
    (default_fallback exampleEnv exampleRegistries 8 ResponseWriter.fresh exampleRequestLater
      (Or.inr (Or.inr hq))).1⟩


/-- C5, as it fails: when the backend answers every request with a redirect,
the one call of `client.Do` follows it, fails after ten exchanges with the
backend, and the handler answers 500: the failed relay has made ten round
trips, not one. -/
theorem failed_relay_contacts_backend_again :
    exampleEnvRedirect.newRequestErr exampleRequest.method
      ("http://http.sock" ++ exampleRequest.requestURI) = none ∧
    (relayDo exampleEnvRedirect exampleRegistries exampleRequest).result =
      .error (.other "stopped after 10 redirects") ∧
    (proxyHandler exampleEnvRedirect exampleRegistries 8 ResponseWriter.fresh
      exampleRequest).w.status = 500 ∧
    (proxyHandler exampleEnvRedirect exampleRegistries 8 ResponseWriter.fresh
      exampleRequest).calls.length = 1 ∧
    (proxyHandler exampleEnvRedirect exampleRegistries 8 ResponseWriter.fresh
      exampleRequest).roundTrips.length = 10 ∧
    (proxyHandler exampleEnvRedirect exampleRegistries 8 ResponseWriter.fresh
      exampleRequest).roundTrips.map (fun t => t.1) =
        List.replicate 10 ("unix", "./var/quay.io/registry.sock") :=
  ⟨by decide, rfl, by decide, by decide, by decide, by decide⟩

/-- C5, amended: when building the outbound request fails, or the call of
`client.Do` fails, the handler returns, without a panic, with status 500
written, the header map and the headers sent are those the writer started with
(no backend header), no body write and no body read are made, `client.Do` has
been called at most once (not at all in the first case) and is not called
again, the exchanges with the backend are those of that one call, at most ten
(a redirect is followed), all with the socket of the resolved namespace, and
the registry map is the one the handler started with. -/
theorem relay_failure {R : Type} (env : Env) (registries : GoMap R) (fuel : Nat)
    (w : ResponseWriter) (r : Request) (hw : w.wroteHeader = false)
    (hfail :
      (∃ err, env.newRequestErr r.method ("http://http.sock" ++ r.requestURI) = some err) ∨
      (env.newRequestErr r.method ("http://http.sock" ++ r.requestURI) = none ∧
        ∃ err, (relayDo env registries r).result = .error err)) :
    (proxyHandler env registries fuel w r).finished = true ∧
    (proxyHandler env registries fuel w r).panic = none ∧
    (proxyHandler env registries fuel w r).w.wroteHeader = true ∧
    (proxyHandler env registries fuel w r).w.status = 500 ∧
    (proxyHandler env registries fuel w r).w.header = w.header ∧
    (proxyHandler env registries fuel w r).w.sentHeader = w.header ∧
    (proxyHandler env registries fuel w r).w.writes = w.writes ∧
    (proxyHandler env registries fuel w r).reads = 0 ∧
    (proxyHandler env registries fuel w r).calls.length ≤ 1 ∧
    ((∃ err, env.newRequestErr r.method ("http://http.sock" ++ r.requestURI) = some err) →
      (proxyHandler env registries fuel w r).calls = [] ∧
      (proxyHandler env registries fuel w r).roundTrips = []) ∧
    (proxyHandler env registries fuel w r).roundTrips.length ≤ 10 ∧
    (∀ t ∈ (proxyHandler env registries fuel w r).roundTrips,
      t.1 = ("unix", getRegistrySock (resolveNamespace registries r.query))) ∧
    (proxyHandler env registries fuel w r).registries = registries := by
  rcases hfail with ⟨err, hnew⟩ | ⟨hnew, err, hdo⟩
  · rw [proxyHandler_of_newRequest_err env registries fuel w r err hnew,
      respond500_of_not_wrote registries w _ _ _ hw]
    simp
  · rw [proxyHandler_of_do_err env registries fuel w r err hnew hdo,
      respond500_of_not_wrote registries w _ _ _ hw]
    have htrips := relayDo_roundTrips env registries r
    simp only [maxRedirects] at htrips
    refine ⟨rfl, rfl, rfl, rfl, rfl, rfl, rfl, rfl, by simp, ?_, htrips.1, htrips.2.1, rfl⟩
    rintro ⟨err2, h2⟩
    rw [hnew] at h2
    cases h2

/-- Instance of `relay_failure`: the `docker.io` backend cannot be dialled. -/
theorem relay_failure_witness :
    (exampleEnv.newRequestErr exampleRequestLater.method
        ("http://http.sock" ++ exampleRequestLater.requestURI) = none ∧
      ∃ err, (relayDo exampleEnv exampleRegistries exampleRequestLater).result =
        .error err) ∧
    (proxyHandler exampleEnv exampleRegistries 8 ResponseWriter.fresh
      exampleRequestLater).w.status = 500 ∧
    (proxyHandler exampleEnv exampleRegistries 8 ResponseWriter.fresh
      exampleRequestLater).w.sentHeader = [] ∧
    (proxyHandler exampleEnv exampleRegistries 8 ResponseWriter.fresh
      exampleRequestLater).w.writes = [] :=
  have hf : exampleEnv.newRequestErr exampleRequestLater.method
        ("http://http.sock" ++ exampleRequestLater.requestURI) = none ∧
      ∃ err, (relayDo exampleEnv exampleRegistries exampleRequestLater).result =
        .error err := ⟨by decide, _, rfl⟩
  have h := relay_failure exampleEnv exampleRegistries 8 ResponseWriter.fresh
    exampleRequestLater rfl (Or.inr hf)
  ⟨hf, h.2.2.2.1, h.2.2.2.2.2.1, h.2.2.2.2.2.2.1⟩

/-- The writer the handler leaves after a response with a final status code:
the header loop's map, sent with the backend's status, and writes added. -/
theorem proxyHandler_writer {R : Type} (env : Env) (registries : GoMap R) (fuel : Nat)
    (w : ResponseWriter) (r : Request) (res : Response) (hw : w.wroteHeader = false)
    (hnew : env.newRequestErr r.method ("http://http.sock" ++ r.requestURI) = none)
    (hdo : (relayDo env registries r).result = .ok res)
    (hfinal : res.statusCode = 101 ∨ (200 ≤ res.statusCode ∧ res.statusCode ≤ 999)) :
    (proxyHandler env registries fuel w r).panic = none ∧
    ∃ ws, (proxyHandler env registries fuel w r).w =
      { header := (copyHeaders env.canon res.header w).header, wroteHeader := true,
        status := res.statusCode, sentHeader := (copyHeaders env.canon res.header w).header,
        writes := w.writes ++ ws, informational := w.informational } := by
  have hw2 : (copyHeaders env.canon res.header w).wroteHeader = false := by
    rw [copyHeaders_eq]; exact hw
  have hwh := WriteHeader_final _ res.statusCode hw2 hfinal
  obtain ⟨st, hst, h⟩ := proxyHandler_of_response env registries fuel w r res _ hnew hdo hwh
  obtain ⟨ws, hws⟩ := copyBody_writer res.body fuel
    { w := { copyHeaders env.canon res.header w with
             wroteHeader := true, status := res.statusCode,
             sentHeader := (copyHeaders env.canon res.header w).header },
      logs := ["[Proxy] " ++ r.method ++ " " ++ r.requestURI,
               "[Proxy] namespace=" ++ resolveNamespace registries r.query],
      buf := List.replicate bufSize 0, reads := 0, finished := false } rfl
  rw [← hst] at hws
  rw [h]
  refine ⟨rfl, ws, ?_⟩
  simp only [hws]
  rw [copyHeaders_eq]

/-- C3, as it fails: when the backend answers with the status 99, which
`client.Do` returns as a response, `WriteHeader` panics on it: the handler ends
with no status written and no byte sent, so the caller does not get the
backend's status.  And when the backend's response has no `Date` header, as
`exampleResponse`, net/http adds one to what the caller receives. -/
theorem relay_panics_on_status_99 :
    (∃ res, (relayDo exampleEnvStatus99 exampleRegistries exampleRequest).result = .ok res ∧
      res.statusCode = 99) ∧
    (proxyHandler exampleEnvStatus99 exampleRegistries 8 ResponseWriter.fresh
      exampleRequest).panic = some (.invalidWriteHeaderCode 99) ∧
    (proxyHandler exampleEnvStatus99 exampleRegistries 8 ResponseWriter.fresh
      exampleRequest).w.wroteHeader = false ∧
    (proxyHandler exampleEnvStatus99 exampleRegistries 8 ResponseWriter.fresh
      exampleRequest).w.writes = [] ∧
    GoMap.has exampleResponse.header "Date" = false ∧
    (proxyHandler exampleEnv exampleRegistries 8 ResponseWriter.fresh
      exampleRequest).w.addsDate = true :=
  ⟨⟨_, rfl, rfl⟩, by decide, by decide, by decide, by decide, by
    obtain ⟨_, ws, h⟩ := proxyHandler_writer exampleEnv exampleRegistries 8 ResponseWriter.fresh
      exampleRequest exampleResponse rfl (by decide) rfl (Or.inr (by decide))
    rw [h]
    simp only [ResponseWriter.addsDate, Bool.true_and]
    decide⟩

/-- C3, amended: on a round trip that `client.Do` returns, with a writer whose
header map is empty and whose status is unwritten, and a response header map
whose keys are distinct and in canonical form (as the keys of a parsed response
are).  When the status code of the response is final (101, or 200 to 999) the
handler does not panic and writes that status; the header map it has set by
then holds, for every name, exactly the values of the response as `client.Do`
returned it, in the same order; the names set are the names of the response
that have a value; every header is set before the status is written (the
headers sent are the whole result of the header loop) and none after it; this
holds however far the body loop has run.  When the status code is below 100 or
above 999, `WriteHeader` panics and the handler ends with no status written and
nothing written to the body.  What net/http adds of its own when it writes the
response is not part of the map. -/
theorem response_header_fidelity {R : Type} (env : Env) (registries : GoMap R) (fuel : Nat)
    (w : ResponseWriter) (r : Request) (res : Response)
    (hw : w.wroteHeader = false) (hempty : w.header = [])
    (hnew : env.newRequestErr r.method ("http://http.sock" ++ r.requestURI) = none)
    (hdo : (relayDo env registries r).result = .ok res)
    (hnd : (GoMap.keys res.header).Nodup)
    (hcanon : ∀ k ∈ GoMap.keys res.header, env.canon k = k) :
    ((res.statusCode = 101 ∨ (200 ≤ res.statusCode ∧ res.statusCode ≤ 999)) →
      (proxyHandler env registries fuel w r).panic = none ∧
      (proxyHandler env registries fuel w r).w.wroteHeader = true ∧
      (proxyHandler env registries fuel w r).w.status = res.statusCode ∧
      (∀ name, Header.values (proxyHandler env registries fuel w r).w.sentHeader name =
        Header.values res.header name) ∧
      (∀ name, GoMap.has (proxyHandler env registries fuel w r).w.sentHeader name = true ↔
        Header.values res.header name ≠ []) ∧
      (proxyHandler env registries fuel w r).w.sentHeader =
        res.header.filter (fun e => !e.2.isEmpty) ∧
      (proxyHandler env registries fuel w r).w.sentHeader =
        (copyHeaders env.canon res.header w).header ∧
      (proxyHandler env registries fuel w r).w.header =
        (proxyHandler env registries fuel w r).w.sentHeader) ∧
    ((res.statusCode < 100 ∨ 999 < res.statusCode) →
      (proxyHandler env registries fuel w r).panic =
        some (.invalidWriteHeaderCode res.statusCode) ∧
      (proxyHandler env registries fuel w r).finished = true ∧
      (proxyHandler env registries fuel w r).w.wroteHeader = false ∧
      (proxyHandler env registries fuel w r).w.writes = w.writes ∧
      (proxyHandler env registries fuel w r).reads = 0) := by
  have hcopy : (copyHeaders env.canon res.header w).header =
      res.header.filter (fun e => !e.2.isEmpty) := by
    rw [copyHeaders_eq, hempty,
      header_foldl_append env.canon res.header [] hnd hcanon (by simp [GoMap.keys])]
    simp
  constructor
  · intro hfinal
    obtain ⟨hp, ws, h⟩ := proxyHandler_writer env registries fuel w r res hw hnew hdo hfinal
    rw [h]
    simp only [hcopy]
    exact ⟨hp, trivial, trivial, fun name => values_filter res.header hnd name,
      fun name => has_filter res.header hnd name, trivial, trivial, trivial⟩
  · intro hbad
    have hw2 : (copyHeaders env.canon res.header w).wroteHeader = false := by
      rw [copyHeaders_eq]; exact hw
    rw [proxyHandler_of_panic env registries fuel w r res _ hnew hdo
      (WriteHeader_panics _ res.statusCode hw2 hbad)]
    refine ⟨rfl, rfl, hw2, ?_, rfl⟩
    rw [copyHeaders_eq]

/-- Instance of `response_header_fidelity`: the `quay.io` backend answers 201
with a two-valued header. -/
theorem response_header_fidelity_witness :
    ((relayDo exampleEnv exampleRegistries exampleRequest).result = .ok exampleResponse ∧
      (200 ≤ exampleResponse.statusCode ∧ exampleResponse.statusCode ≤ 999) ∧
      (GoMap.keys exampleResponse.header).Nodup ∧
      ∀ k ∈ GoMap.keys exampleResponse.header, exampleEnv.canon k = k) ∧
    (proxyHandler exampleEnv exampleRegistries 8 ResponseWriter.fresh exampleRequest).w.status
      = 201 ∧
    (proxyHandler exampleEnv exampleRegistries 8 ResponseWriter.fresh
      exampleRequest).w.sentHeader = [("X-Test", ["1", "2"]), ("Content-Type", ["text/plain"])] :=
  have hdo : (relayDo exampleEnv exampleRegistries exampleRequest).result =
      .ok exampleResponse := rfl
  have hfinal : 200 ≤ exampleResponse.statusCode ∧ exampleResponse.statusCode ≤ 999 := by
    decide
  have hnd : (GoMap.keys exampleResponse.header).Nodup := by decide
  have hcanon : ∀ k ∈ GoMap.keys exampleResponse.header, exampleEnv.canon k = k := by decide
  have h := (response_header_fidelity exampleEnv exampleRegistries 8 ResponseWriter.fresh
    exampleRequest exampleResponse rfl rfl (by decide) hdo hnd hcanon).1 (Or.inr hfinal)
  ⟨⟨hdo, hfinal, hnd, hcanon⟩, h.2.2.1, h.2.2.2.2.2.1⟩

theorem keys_set_of_not_mem {β : Type} (m : GoMap β) (k : String) (v : β)
    (h : k ∉ GoMap.keys m) : GoMap.keys (GoMap.set m k v) = GoMap.keys m ++ [k] := by
  rw [GoMap.set_of_not_mem m k v h]
  simp [GoMap.keys]

/-- What a successful run of the loop of `setupRegistries` returns. -/
theorem setupRegistriesLoop_ok {R : Type} (newRegistry : Configuration → Except GoError R)
    (entries : List (String × Proxy)) :
    ∀ (acc regs : GoMap R), setupRegistriesLoop newRegistry entries acc = .ok regs →
      (∀ e ∈ entries, ∃ r, setupProxy newRegistry e.1 e.2 = .ok r) ∧
      (∀ k, k ∈ GoMap.keys regs ↔ k ∈ GoMap.keys acc ∨ k ∈ GoMap.keys entries) ∧
      (∀ k r, GoMap.get? regs k = some r → GoMap.get? acc k = some r ∨
        ∃ p, (k, p) ∈ entries ∧ setupProxy newRegistry k p = .ok r) ∧
      ((GoMap.keys entries).Nodup → (∀ k ∈ GoMap.keys entries, k ∉ GoMap.keys acc) →
        GoMap.keys regs = GoMap.keys acc ++ GoMap.keys entries) := by
  induction entries with
  | nil =>
    intro acc regs h
    simp only [setupRegistriesLoop, Except.ok.injEq] at h
    subst h
    simp [GoMap.keys]
  | cons e rest ih =>
    intro acc regs h
    obtain ⟨ns, url⟩ := e
    simp only [setupRegistriesLoop] at h
    cases hsp : setupProxy newRegistry ns url with
    | error err => simp [hsp] at h
    | ok r0 =>
      simp only [hsp] at h
      obtain ⟨h1, h2, h3, h4⟩ := ih _ _ h
      refine ⟨?_, ?_, ?_, ?_⟩
      · intro e he
        rcases List.mem_cons.mp he with rfl | he
        · exact ⟨r0, hsp⟩
        · exact h1 e he
      · intro k
        rw [h2 k, GoMap.mem_keys_set]
        simp only [GoMap.keys, List.map_cons, List.mem_cons]
        tauto
      · intro k r hk
        rcases h3 k r hk with hk | ⟨p, hp, hpr⟩
        · by_cases hns : ns = k
          · subst hns
            rw [GoMap.get?_set_self] at hk
            simp only [Option.some.injEq] at hk
            subst hk
            exact Or.inr ⟨url, by simp, hsp⟩
          · rw [GoMap.get?_set_other _ _ _ _ hns] at hk
            exact Or.inl hk
        · exact Or.inr ⟨p, List.mem_cons_of_mem _ hp, hpr⟩
      · intro hnd hdis
        have hnd' : ns ∉ GoMap.keys rest ∧ (GoMap.keys rest).Nodup := by
          simpa [GoMap.keys] using hnd
        have hns : ns ∉ GoMap.keys acc := hdis ns (by simp [GoMap.keys])
        rw [h4 hnd'.2, keys_set_of_not_mem acc ns r0 hns]
        · simp [GoMap.keys]
        · intro k hk hmem
          rw [GoMap.mem_keys_set] at hmem
          rcases hmem with hmem | hmem
          · exact hnd'.1 (hmem ▸ hk)
          · exact hdis k (by
              simp only [GoMap.keys, List.map_cons, List.mem_cons]; exact Or.inr hk) hmem

/-- The loop of `setupRegistries` succeeds when every `setupProxy` does. -/
theorem setupRegistriesLoop_total {R : Type} (newRegistry : Configuration → Except GoError R)
    (entries : List (String × Proxy)) :
    ∀ acc : GoMap R, (∀ e ∈ entries, ∃ r, setupProxy newRegistry e.1 e.2 = .ok r) →
      ∃ regs, setupRegistriesLoop newRegistry entries acc = .ok regs := by
  induction entries with
  | nil => intro acc _; exact ⟨acc, rfl⟩
  | cons e rest ih =>
    intro acc h
    obtain ⟨ns, url⟩ := e
    obtain ⟨r, hr⟩ := h (ns, url) (by simp)
    simp only [setupRegistriesLoop, hr]
    exact ih _ (fun e he => h e (List.mem_cons_of_mem _ he))

/-- The loop of `setupRegistries` fails when some `setupProxy` does, with the
error of one of the failing calls. -/
theorem setupRegistriesLoop_fails {R : Type} (newRegistry : Configuration → Except GoError R)
    (entries : List (String × Proxy)) :
    ∀ acc : GoMap R, (∃ e ∈ entries, ∃ err, setupProxy newRegistry e.1 e.2 = .error err) →
      ∃ err, setupRegistriesLoop newRegistry entries acc = .error err ∧
        ∃ e ∈ entries, setupProxy newRegistry e.1 e.2 = .error err := by
  induction entries with
  | nil => intro acc h; obtain ⟨e, he, _⟩ := h; simp at he
  | cons e rest ih =>
    intro acc h
    obtain ⟨ns, url⟩ := e
    cases hsp : setupProxy newRegistry ns url with
    | error err =>
      exact ⟨err, by simp only [setupRegistriesLoop, hsp], (ns, url), by simp, hsp⟩
    | ok r0 =>
      obtain ⟨e, he, err, herr⟩ := h
      rcases List.mem_cons.mp he with rfl | he
      · rw [hsp] at herr
        cases herr
      · obtain ⟨err', h1, e', he', h2⟩ := ih (GoMap.set acc ns r0) ⟨e, he, err, herr⟩
        exact ⟨err', by simp only [setupRegistriesLoop, hsp, h1], e',
          List.mem_cons_of_mem _ he', h2⟩

/-- C10: the configuration `setupProxy` builds for a namespace binds network
`"unix"` at `getRegistrySock ns`, the very pair the relay dials for a request
resolved to `ns`, whatever the transport passes.  When every `setupProxy` call
succeeds, `setupRegistries` returns a registry whose keys are those of the
namespace map (the same list, for a map with distinct keys) and whose registry
for a key is what `registry.NewRegistry` returned for that namespace's
configuration; when some call fails, it returns that call's error and no
registry. -/
theorem bind_dial_agreement {R : Type} (newRegistry : Configuration → Except GoError R)
    (namespaces : GoMap Proxy) :
    (∀ (ns : String) (proxy : Proxy) (network addr : String),
      (setupProxyConfig ns proxy).HTTPNet = "unix" ∧
      (setupProxyConfig ns proxy).HTTPAddr = getRegistrySock ns ∧
      ((setupProxyConfig ns proxy).HTTPNet, (setupProxyConfig ns proxy).HTTPAddr) =
        Client.dialContext { nsName := ns } network addr) ∧
    ((∀ e ∈ namespaces, ∃ r, setupProxy newRegistry e.1 e.2 = .ok r) →
      ∃ regs, setupRegistries newRegistry namespaces = .ok regs ∧
        (∀ k, GoMap.has regs k = GoMap.has namespaces k) ∧
        (∀ k r, GoMap.get? regs k = some r →
          ∃ p, (k, p) ∈ namespaces ∧ newRegistry (setupProxyConfig k p) = .ok r) ∧
        ((GoMap.keys namespaces).Nodup → GoMap.keys regs = GoMap.keys namespaces)) ∧
    ((∃ e ∈ namespaces, ∃ err, setupProxy newRegistry e.1 e.2 = .error err) →
      ∃ err, setupRegistries newRegistry namespaces = .error err ∧
        ∃ e ∈ namespaces, setupProxy newRegistry e.1 e.2 = .error err) := by
  refine ⟨fun ns proxy network addr => ⟨rfl, rfl, rfl⟩, ?_, ?_⟩
  · intro hall
    obtain ⟨regs, hregs⟩ := setupRegistriesLoop_total newRegistry namespaces [] hall
    obtain ⟨_, h2, h3, h4⟩ := setupRegistriesLoop_ok newRegistry namespaces [] regs hregs
    refine ⟨regs, hregs, ?_, ?_, ?_⟩
    · intro k
      rw [Bool.eq_iff_iff, GoMap.has_iff_mem_keys, GoMap.has_iff_mem_keys, h2 k]
      simp [GoMap.keys]
    · intro k r hk
      rcases h3 k r hk with hk | h
      · simp [GoMap.get?] at hk
      · exact h
    · intro hnd
      rw [h4 hnd (by simp [GoMap.keys])]
      simp [GoMap.keys]
  · intro hfail
    exact setupRegistriesLoop_fails newRegistry namespaces [] hfail

/-- Instance of `bind_dial_agreement`: the namespace map of `main` with a
`registry.NewRegistry` that always succeeds. -/
theorem bind_dial_agreement_witness :
    (∀ e ∈ mainNamespaces, ∃ r, setupProxy exampleNewRegistry e.1 e.2 = .ok r) ∧
    ∃ regs, setupRegistries exampleNewRegistry mainNamespaces = .ok regs ∧
      GoMap.keys regs = ["docker.io", "quay.io", "registry.k8s.io", "cr.l5d.io",
        "container-registry.oracle.com"] :=
  have hall : ∀ e ∈ mainNamespaces, ∃ r, setupProxy exampleNewRegistry e.1 e.2 = .ok r :=
    fun e _ => ⟨_, rfl⟩
  ⟨hall, by
    obtain ⟨regs, h1, _, _, h4⟩ :=
      (bind_dial_agreement exampleNewRegistry mainNamespaces).2.1 hall
    exact ⟨regs, h1, by rw [h4 (by decide)]; rfl⟩⟩

/-- C7, as it fails: on a namespace configuration without `docker.io`,
`setupRegistries` returns a registry, not an error, and resolving a request
without `ns` against that registry yields `docker.io`, which is not a key. -/
theorem default_namespace_not_validated :
    GoMap.has exampleNamespacesNoDefault "docker.io" = false ∧
    setupRegistries exampleNewRegistry exampleNamespacesNoDefault =
      .ok [("quay.io", "./var/quay.io/registry.sock")] ∧
    resolveNamespace [("quay.io", "./var/quay.io/registry.sock")] [] = "docker.io" ∧
    GoMap.has [("quay.io", "./var/quay.io/registry.sock")]
      (resolveNamespace [("quay.io", "./var/quay.io/registry.sock")] []) = false :=
  ⟨by decide, rfl, by decide, by decide⟩

/-- C7, amended: `setupRegistries` makes no check of the default namespace:
whether it returns a registry depends only on the `setupProxy` calls, and the
registry it returns has the key `docker.io` exactly when the configuration has
it.  So the namespace resolved at request time is a key of the registry for
every query exactly when the configuration contains `docker.io`, which the
configuration of `main` does. -/
theorem resolution_yields_key {R : Type} (newRegistry : Configuration → Except GoError R)
    (namespaces : GoMap Proxy) :
    ((∀ e ∈ namespaces, ∃ r, setupProxy newRegistry e.1 e.2 = .ok r) →
      ∃ regs, setupRegistries newRegistry namespaces = .ok regs) ∧
    (∀ regs, setupRegistries newRegistry namespaces = .ok regs →
      (GoMap.has regs "docker.io" = GoMap.has namespaces "docker.io") ∧
      ((∀ query : GoMap (List String), GoMap.has regs (resolveNamespace regs query) = true) ↔
        GoMap.has namespaces "docker.io" = true)) ∧
    GoMap.has mainNamespaces "docker.io" = true := by
  refine ⟨setupRegistriesLoop_total newRegistry namespaces [], ?_, by decide⟩
  intro regs hok
  obtain ⟨_, h2, _, _⟩ := setupRegistriesLoop_ok newRegistry namespaces [] regs hok
  have hsame : GoMap.has regs "docker.io" = GoMap.has namespaces "docker.io" := by
    rw [Bool.eq_iff_iff, GoMap.has_iff_mem_keys, GoMap.has_iff_mem_keys, h2]
    simp [GoMap.keys]
  refine ⟨hsame, ?_, ?_⟩
  · intro hall
    have := hall []
    rw [← hsame]
    simpa [resolveNamespace, GoMap.get?, defaultNamespace] using this
  · intro hdef query
    have hd : GoMap.has regs "docker.io" = true := by rw [hsame]; exact hdef
    unfold resolveNamespace
    split
    · split
      · assumption
      · exact hd
    · exact hd

/-- Instance of `resolution_yields_key`: the namespace map of `main`. -/
theorem resolution_yields_key_witness :
    GoMap.has mainNamespaces "docker.io" = true ∧
    ∃ regs, setupRegistries exampleNewRegistry mainNamespaces = .ok regs ∧
      GoMap.has regs "docker.io" = true ∧
      GoMap.has regs (resolveNamespace regs [("ns", ["nope"])]) = true :=
  have h := (resolution_yields_key exampleNewRegistry mainNamespaces).2.1 _ rfl
  ⟨by decide, _, rfl, h.1.trans (by decide), h.2.mpr (by decide) _⟩

/-! ## The error channel -/

theorem init_inv (n : Nat) : (Sys.init n).Inv := by
  refine ⟨by simp [Sys.init], fun _ => rfl, ?_, ?_, ?_⟩
  · intro err h; simp [Sys.init, Sys.surfaced] at h
  · intro h; simp [Sys.init, Sys.surfaced] at h
  · intro h; simp [Sys.init] at h

theorem not_closed_of_busy (s : Sys) (hinv : s.Inv) (i : Nat) (x : Worker)
    (hx : s.workers[i]? = some x) (hne : x ≠ .done) : s.closed = false := by
  cases hc : s.closed with
  | false => rfl
  | true => exact absurd (hinv.2.2.2.2 hc x (List.getElem?_mem hx)) hne

theorem step_inv (s s1 : Sys) (a : Action) (hinv : s.Inv) (h : step s a = some s1) :
    s1.Inv := by
  obtain ⟨h1, h2, h3, h4, h5⟩ := hinv
  cases a with
  | fail i err =>
    simp only [step] at h
    split at h
    · cases h
    · split at h
      · rename_i hw
        have hc := not_closed_of_busy s ⟨h1, h2, h3, h4, h5⟩ i _ hw (by simp)
        cases h
        exact ⟨h1, h2, h3, h4, fun hc' => by simp [hc] at hc'⟩
      · cases h
  | ret i =>
    simp only [step] at h
    split at h
    · cases h
    · split at h
      · rename_i hw
        have hc := not_closed_of_busy s ⟨h1, h2, h3, h4, h5⟩ i _ hw (by simp)
        cases h
        exact ⟨h1, h2, h3, h4, fun hc' => by simp [hc] at hc'⟩
      · cases h
  | send i =>
    simp only [step] at h
    split at h
    · cases h
    · split at h
      · rename_i err hw
        split at h
        · rename_i hcond
          obtain ⟨hlen, hc⟩ := hcond
          have hbuf : s.buf = [] := by
            cases hb : s.buf with
            | nil => rfl
            | cons b bs => simp [hb, errChCap] at hlen
          cases h
          refine ⟨by simp [hbuf, errChCap], ?_, ?_, ?_, fun hc' => by simp [hc] at hc'⟩
          · intro hm
            simp only [h2 hm]
          · intro e he
            have := h3 e he
            simp only [List.head?_append, this, Option.or_some]
          · intro he
            have := (h4 he).2
            simp [hc] at this
        · cases h
      · cases h
  | close =>
    simp only [step] at h
    split at h
    · cases h
    · split at h
      · rename_i hcond
        cases h
        refine ⟨h1, h2, h3, fun he => ⟨(h4 he).1, rfl⟩, fun _ x hx => ?_⟩
        have := List.all_eq_true.mp hcond.2 x hx
        simpa using this
      · cases h
  | recv =>
    simp only [step] at h
    split at h
    · rename_i hm
      split at h
      · rename_i err rest hb
        cases h
        refine ⟨?_, ?_, ?_, ?_, h5⟩
        · simp only [hb, List.length_cons] at h1
          simp only []
          omega
        · intro hm'; cases hm'
        · intro e he
          simp only [Sys.surfaced, Option.some.injEq] at he
          subst he
          simp only [h2 hm, hb, List.head?_cons]
        · intro he
          simp [Sys.surfaced] at he
      · rename_i hb
        split at h
        · rename_i hcl
          cases h
          refine ⟨h1, ?_, ?_, ?_, h5⟩
          · intro hm'; cases hm'
          · intro e he
            simp [Sys.surfaced] at he
          · intro _
            exact ⟨by simp only [h2 hm, hb], hcl⟩
        · cases h
    · cases h
  | fatal =>
    simp only [step] at h
    split at h
    · rename_i err hm
      cases h
      refine ⟨h1, ?_, ?_, ?_, h5⟩
      · intro hm'; cases hm'
      · intro e he
        exact h3 e (by simpa [Sys.surfaced, hm] using he)
      · intro he
        exact h4 (by simpa [Sys.surfaced, hm] using he)
    · cases h

theorem run_inv (sched : List Action) :
    ∀ s s1 : Sys, s.Inv → run s sched = some s1 → s1.Inv := by
  induction sched with
  | nil =>
    intro s s1 hinv h
    simp only [run, Option.some.injEq] at h
    exact h ▸ hinv
  | cons a rest ih =>
    intro s s1 hinv h
    simp only [run] at h
    cases hs : step s a with
    | none => simp [hs] at h
    | some s2 =>
      simp only [hs] at h
      exact ih s2 s1 (step_inv s s2 a hinv hs) h

/-- When a worker stands at its send and the process has not exited, the send
can be taken exactly when the buffer is empty. -/
theorem send_enabled_iff (s : Sys) (hinv : s.Inv) (i : Nat) (err : GoError)
    (hw : s.workers[i]? = some (.sending err)) (hex : s.exited = false) :
    (step s (.send i)).isSome = true ↔ s.buf = [] := by
  have hc := not_closed_of_busy s hinv i _ hw (by simp)
  simp only [step, hex, hw, hc, and_true]
  cases hb : s.buf with
  | nil => simp [errChCap]
  | cons b bs => simp [errChCap]

/-- C8, as it fails: with two failing components, once the first has sent its
error and before `main` has received it, the second one's send cannot be taken:
it waits on the full slot.  Once `main` has taken the first error, the second
send completes and its error sits in the slot. -/
theorem later_writer_blocks :
    (run (Sys.init 2) [.fail 0 (.other "a"), .fail 1 (.other "b"), .send 0] =
      some { workers := [.done, .sending (.other "b")], buf := [.other "a"], closed := false,
             main := .waiting, sent := [.other "a"] }) ∧
    step { workers := [.done, .sending (.other "b")], buf := [.other "a"], closed := false,
           main := .waiting, sent := [.other "a"] } (.send 1) = none ∧
    Sys.blocked { workers := [.done, .sending (.other "b")], buf := [.other "a"],
                  closed := false, main := .waiting, sent := [.other "a"] } 1 = true ∧
    (run (Sys.init 2) [.fail 0 (.other "a"), .fail 1 (.other "b"), .send 0, .recv, .send 1] =
      some { workers := [.done, .done], buf := [.other "b"], closed := false,
             main := .received (some (.other "a")), sent := [.other "a", .other "b"] }) :=
  ⟨by decide, by decide, by decide, by decide⟩

/-- C8, amended: in every schedule of the goroutines of `main`, with any number
of supervised components, the slot never holds more than one error; an error
`main` has received is the first one sent (and a nil is received only when
nothing was sent); and the send of a worker that has failed, while the process
has not exited, can be taken exactly when the slot is empty, so it is blocked
exactly when the slot is full; a send that is taken stores its error in the
slot. -/
theorem error_slot_first_writer_wins (n : Nat) (sched : List Action) (s : Sys)
    (hrun : run (Sys.init n) sched = some s) :
    s.buf.length ≤ 1 ∧
    (∀ err, s.surfaced = some (some err) → s.sent.head? = some err) ∧
    (s.surfaced = some none → s.sent = []) ∧
    (∀ i err, s.workers[i]? = some (.sending err) → s.exited = false →
      (((step s (.send i)).isSome = true ↔ s.buf = []) ∧
       (s.blocked i = true ↔ s.buf ≠ []) ∧
       (∀ s1, step s (.send i) = some s1 → s1.buf = [err] ∧ s1.sent = s.sent ++ [err]))) := by
  have hinv := run_inv sched (Sys.init n) s (init_inv n) hrun
  refine ⟨hinv.1, hinv.2.2.1, fun h => (hinv.2.2.2.1 h).1, ?_⟩
  intro i err hw hex
  have hen := send_enabled_iff s hinv i err hw hex
  refine ⟨hen, ?_, ?_⟩
  · simp only [Sys.blocked, hw, hex, Bool.not_false, Bool.and_true]
    rw [Ne, ← hen]
    cases step s (.send i) <;> simp
  · intro s1 hs1
    have hbuf : s.buf = [] := hen.mp (by simp [hs1])
    have hc := not_closed_of_busy s hinv i _ hw (by simp)
    simp only [step, hex, hw, hbuf, hc, errChCap] at hs1
    simp only [List.length_nil, Nat.lt_one_iff, and_self, if_true, Bool.false_eq_true,
      if_false, List.nil_append, Option.some.injEq] at hs1
    subst hs1
    exact ⟨rfl, rfl⟩

/-- Instance of `error_slot_first_writer_wins`: three components, two of which
fail; `main` receives the error sent first. -/
theorem error_slot_first_writer_wins_witness :
    (run (Sys.init 3) [.fail 1 (.other "b"), .fail 0 (.other "a"), .send 1, .recv, .send 0,
        .fatal] =
      some { workers := [.done, .done, .serving], buf := [.other "a"], closed := false,
             main := .exited (some (.other "b")), sent := [.other "b", .other "a"] }) ∧
    List.head? [GoError.other "b", GoError.other "a"] = some (GoError.other "b") :=
  have hrun : run (Sys.init 3) [.fail 1 (.other "b"), .fail 0 (.other "a"), .send 1, .recv,
        .send 0, .fatal] =
      some { workers := [.done, .done, .serving], buf := [.other "a"], closed := false,
             main := .exited (some (.other "b")), sent := [.other "b", .other "a"] } := by
    decide
  ⟨hrun, (error_slot_first_writer_wins 3 _ _ hrun).2.1 (.other "b") rfl⟩
end RegistryProxy

